import Mathlib

/-!
Shallow embedding of the product discovery engine of `src/routes/chat.ts`
(marketplace backend).  JavaScript strings are modelled as lists of
characters (`Str`); listing and user documents become structures; the
MongoDB queries used by the routes become pure functions over an explicit
store state.  Where MongoDB leaves tie order unspecified (`sort` on equal
keys) the model determinizes with a stable insertion sort, and the
case-insensitive `$regex` title filter is modelled as case-insensitive
literal substring containment, which is what the routes use it for.
-/

/-- Character-list model of a JavaScript string. -/
abbrev Str := List Char

/-- Model of `String.prototype.toLowerCase` (per-character lowering). -/
def toLowerStr (s : Str) : Str := s.map Char.toLower

/-- Model of `String.prototype.trim`: drop whitespace at both ends. -/
def trimStr (s : Str) : Str :=
  (((s.dropWhile Char.isWhitespace).reverse).dropWhile Char.isWhitespace).reverse

/-- Characters of the fixed split class `keywordSplitRegex` in chat.ts
(whitespace plus a punctuation class; the apostrophe, double quote and
backslash are written via their code points). -/
def keywordSplitChar (c : Char) : Bool :=
  c.isWhitespace ||
    ([',', '.', ';', ':', '/', '|', '(', ')', '+', '-', '_', '!', '?',
      Char.ofNat 34, Char.ofNat 39, Char.ofNat 92].contains c)

/-- Split a character list at every character satisfying `p`; adjacent
separators yield empty fragments, exactly like splitting one separator at a
time.  The JavaScript regex collapses separator runs, but the two agree on
all fragments of length ≥ 2, which is all `addKeywords` keeps. -/
def splitOnPred (p : Char → Bool) : Str → List Str
  | [] => [[]]
  | c :: rest =>
    let r := splitOnPred p rest
    if p c then [] :: r
    else
      match r with
      | [] => [[c]]
      | w :: ws => (c :: w) :: ws

/-- Fragments of a title kept as keywords: lower-case, split on the fixed
class, trim each fragment, keep length ≥ 2 (body of `addKeywords`). -/
def extractWords (t : Str) : List Str :=
  ((splitOnPred keywordSplitChar (toLowerStr t)).map trimStr).filter
    (fun w => 2 ≤ w.length)

/-- Embedding of `addKeywords` (chat.ts lines 341-349).  A missing or empty
title (JavaScript-falsy) contributes nothing; otherwise every surviving
fragment is inserted into the caller-supplied set. -/
def addKeywords (set : Finset Str) (title : Option Str) : Finset Str :=
  match title with
  | none => set
  | some t =>
    if t.isEmpty then set
    else (extractWords t).foldl (fun s w => insert w s) set

/-- Embedding of `hasKeywordMatch` (chat.ts lines 351-358): false on a
falsy title or an empty keyword set, otherwise true iff some keyword of the
set is a substring of the lower-cased title. -/
def hasKeywordMatch (title : Option Str) (keywords : Finset Str) : Bool :=
  match title with
  | none => false
  | some t =>
    if t.isEmpty || keywords.card = 0 then false
    else decide (∃ k ∈ keywords, k <:+: toLowerStr t)

/-- A listing document as stored (Product schema plus the fields the
discovery routes read).  Identities are opaque and modelled as naturals;
`likedBy` and `shareCount` are optional because the popularity pipeline
guards them with `$ifNull`. -/
structure ProductDoc where
  id : Nat
  title : Option Str
  category : Option Str
  likedBy : Option (List Nat)
  shareCount : Option Nat
  createdAt : Nat
deriving DecidableEq, Repr

/-- The slice of a user document read by `GET /recommend`. -/
structure UserDoc where
  id : Nat
  recentlyViewedProducts : List Nat
  sharedProducts : List Nat
deriving DecidableEq, Repr

/-- The store state the discovery routes read: the listing collection (in
collection order) and the user collection. -/
structure Store where
  products : List ProductDoc
  users : List UserDoc
deriving DecidableEq, Repr

/-- `HISTORY_LIMIT` in chat.ts. -/
def HISTORY_LIMIT : Nat := 50

/-- An interest profile: a category set plus a keyword set (spec §3). -/
structure InterestProfile where
  categories : Finset Str
  keywords : Finset Str

/-- Category test of the scorer loop:
`!!product.category && categories.has(product.category)` — the category
must be present, non-empty (truthy) and a member of the set. -/
def matchesCategory (category : Option Str) (cats : Finset Str) : Bool :=
  match category with
  | none => false
  | some c => !c.isEmpty && decide (c ∈ cats)

/-- A candidate hits a profile when its category matches the profile's
category set or its title keyword-matches the profile's keyword set
(the `matchesPrimaryCategory || matchesPrimaryKeyword` test, and the same
shape for the secondary profile). -/
def profileHit (profile : InterestProfile) (p : ProductDoc) : Bool :=
  matchesCategory p.category profile.categories ||
    hasKeywordMatch p.title profile.keywords

/-- Embedding of the tier loop of `GET /recommend` (chat.ts lines 583-603):
skip excluded candidates, push primary hits, then secondary hits, then the
rest, preserving candidate order in each tier. -/
def scoreCandidates (primary secondary : InterestProfile)
    (excludeIds : Finset Nat) :
    List ProductDoc → List ProductDoc × List ProductDoc × List ProductDoc
  | [] => ([], [], [])
  | p :: rest =>
    let r := scoreCandidates primary secondary excludeIds rest
    if p.id ∈ excludeIds then r
    else if profileHit primary p then (p :: r.1, r.2.1, r.2.2)
    else if profileHit secondary p then (r.1, p :: r.2.1, r.2.2)
    else (r.1, r.2.1, p :: r.2.2)

/-- The merge step of `GET /recommend` (chat.ts lines 605-608):
concatenate the three tiers and truncate to the limit of 200. -/
def mergedOf (primary secondary : InterestProfile) (excl : Finset Nat)
    (candidates : List ProductDoc) : List ProductDoc :=
  ((scoreCandidates primary secondary excl candidates).1 ++
      (scoreCandidates primary secondary excl candidates).2.1 ++
      (scoreCandidates primary secondary excl candidates).2.2).take 200

/-- Membership in tier one: not excluded and a primary-profile hit. -/
def inTierOne (primary : InterestProfile) (excl : Finset Nat)
    (p : ProductDoc) : Bool :=
  !decide (p.id ∈ excl) && profileHit primary p

/-- Membership in tier two: not excluded, not a primary hit, and a
secondary-profile hit. -/
def inTierTwo (primary secondary : InterestProfile) (excl : Finset Nat)
    (p : ProductDoc) : Bool :=
  !decide (p.id ∈ excl) && !profileHit primary p && profileHit secondary p

/-- Membership in tier three: not excluded and matching neither profile. -/
def inTierThree (primary secondary : InterestProfile) (excl : Finset Nat)
    (p : ProductDoc) : Bool :=
  !decide (p.id ∈ excl) && !profileHit primary p && !profileHit secondary p

/-- Recency order used by `.sort({ createdAt: -1 })`: `a` may come before
`b` when `a` is at least as recent. -/
def createdDesc (a b : ProductDoc) : Prop := b.createdAt ≤ a.createdAt

instance : DecidableRel createdDesc := fun _ _ => Nat.decLe _ _

/-- Model of `Product.find(pred).sort({ createdAt: -1 }).limit(limit)`:
filter the collection, order by descending creation time (stable, as a
determinization of the store's unspecified tie order), truncate. -/
def productFind (pred : ProductDoc → Bool) (limit : Nat)
    (store : Store) : List ProductDoc :=
  (List.insertionSort createdDesc (store.products.filter pred)).take limit

/-- The case-insensitive title regex filter `{ title: { $regex: kw,
$options: "i" } }`, modelled as lower-cased substring containment; a
document without a title never matches. -/
def titleRegexI (pat : Str) (title : Option Str) : Bool :=
  match title with
  | none => false
  | some t => decide (toLowerStr pat <:+: toLowerStr t)

/-- The `keywordFilter` object of `GET /recommend`: empty when the trimmed
keyword is empty, otherwise the title regex filter. -/
def keywordFilterPred (kw : Str) (p : ProductDoc) : Bool :=
  if kw.isEmpty then true else titleRegexI kw p.title

/-- `fetchDefaultList` of `GET /recommend` (chat.ts lines 498-503):
keyword-filtered listings, most recent first, capped at 200. -/
def fetchDefaultList (kw : Str) (store : Store) : List ProductDoc :=
  productFind (keywordFilterPred kw) 200 store

/-- The filter object of `GET /` (chat.ts lines 408-414): optional trimmed
title query and optional trimmed exact category. -/
def indexFilter (q category : Option Str) (p : ProductDoc) : Bool :=
  (match q with
    | none => true
    | some s =>
      if (trimStr s).isEmpty then true else titleRegexI (trimStr s) p.title) &&
  (match category with
    | none => true
    | some c =>
      if (trimStr c).isEmpty then true
      else decide (p.category = some (trimStr c)))

/-- The default (non-popular) branch of `GET /` (chat.ts line 448):
filtered listings, most recent first, capped at 200. -/
def listDefaultMode (q category : Option Str) (store : Store) :
    List ProductDoc :=
  productFind (indexFilter q category) 200 store

/-- `Product.find({ likedBy: user.id }).limit(40)`: listings the user
liked, in collection order, capped at 40. -/
def likedProductsOf (store : Store) (uid : Nat) : List ProductDoc :=
  (store.products.filter (fun p => (p.likedBy.getD []).contains uid)).take 40

/-- `User.findById(user.id)` projected to the two history sequences. -/
def userDocOf (store : Store) (uid : Nat) : Option UserDoc :=
  store.users.find? (fun u => u.id == uid)

/-- `(userDoc?.sharedProducts || []).slice(0, HISTORY_LIMIT)`. -/
def sharedIdsOf (store : Store) (uid : Nat) : List Nat :=
  (((userDocOf store uid).map UserDoc.sharedProducts).getD []).take
    HISTORY_LIMIT

/-- `(userDoc?.recentlyViewedProducts || []).slice(0, HISTORY_LIMIT)`. -/
def viewedIdsOf (store : Store) (uid : Nat) : List Nat :=
  (((userDocOf store uid).map UserDoc.recentlyViewedProducts).getD []).take
    HISTORY_LIMIT

/-- `Product.find({ _id: { $in: sharedIds } })`, fetched only when the id
list is non-empty (chat.ts lines 529-533); `$in` returns matching
documents in collection order. -/
def sharedProductsOf (store : Store) (uid : Nat) : List ProductDoc :=
  if (sharedIdsOf store uid).isEmpty then []
  else store.products.filter (fun p => (sharedIdsOf store uid).contains p.id)

/-- The recently-viewed analogue of `sharedProductsOf`. -/
def viewedProductsOf (store : Store) (uid : Nat) : List ProductDoc :=
  if (viewedIdsOf store uid).isEmpty then []
  else store.products.filter (fun p => (viewedIdsOf store uid).contains p.id)

/-- `primarySources = [...likedProducts, ...sharedProducts]`. -/
def primarySourcesOf (store : Store) (uid : Nat) : List ProductDoc :=
  likedProductsOf store uid ++ sharedProductsOf store uid

/-- `secondarySources = viewedProducts`. -/
def secondarySourcesOf (store : Store) (uid : Nat) : List ProductDoc :=
  viewedProductsOf store uid

/-- Category set of a source list: trimmed categories with the falsy
(empty) ones discarded (chat.ts lines 548-557). -/
def categorySetOf (ps : List ProductDoc) : Finset Str :=
  ((ps.map (fun p => trimStr (p.category.getD []))).filter
      (fun c => !c.isEmpty)).toFinset

/-- Keyword set of a source list: `addKeywords` folded over the titles. -/
def keywordSetOf (ps : List ProductDoc) : Finset Str :=
  ps.foldl (fun s p => addKeywords s p.title) ∅

/-- When a search keyword was supplied, its lower-cased form joins the
profile's keyword set (chat.ts lines 564-567). -/
def withSearchKeyword (keyword : Str) (s : Finset Str) : Finset Str :=
  if keyword.isEmpty then s else insert (toLowerStr keyword) s

/-- The primary interest profile of a recommend request: categories and
keywords of the liked + shared sources, plus the search keyword. -/
def primaryProfileOf (store : Store) (uid : Nat) (keyword : Str) :
    InterestProfile :=
  ⟨categorySetOf (primarySourcesOf store uid),
    withSearchKeyword keyword (keywordSetOf (primarySourcesOf store uid))⟩

/-- The secondary interest profile: same construction over the
recently-viewed sources. -/
def secondaryProfileOf (store : Store) (uid : Nat) (keyword : Str) :
    InterestProfile :=
  ⟨categorySetOf (secondarySourcesOf store uid),
    withSearchKeyword keyword (keywordSetOf (secondarySourcesOf store uid))⟩

/-- `excludeIds`: the identities of every primary and secondary source
listing (chat.ts lines 569-572). -/
def excludeIdsOf (store : Store) (uid : Nat) : Finset Nat :=
  ((primarySourcesOf store uid ++ secondarySourcesOf store uid).map
      ProductDoc.id).toFinset

/-- The candidate pool: keyword-filtered listings, most recent first,
capped at `limit * 2 = 400` (chat.ts lines 574-577). -/
def candidatesOf (kw : Str) (store : Store) : List ProductDoc :=
  productFind (keywordFilterPred kw) 400 store

/-- The merged, capped tier output of an identified recommend request. -/
def recommendMergedOf (store : Store) (uid : Nat) (keyword : Str) :
    List ProductDoc :=
  mergedOf (primaryProfileOf store uid keyword)
    (secondaryProfileOf store uid keyword) (excludeIdsOf store uid)
    (candidatesOf keyword store)

/-- Embedding of the whole `GET /recommend` handler (chat.ts lines
489-615).  The two anonymous sub-branches run the identical query and are
folded into one; an identified request falls back to the default list when
all signals are empty and no keyword was given, or when the merged tier
output is empty. -/
def recommendHandler (user : Option Nat) (q : Str) (store : Store) :
    List ProductDoc :=
  match user with
  | none => fetchDefaultList (trimStr q) store
  | some uid =>
    if (primarySourcesOf store uid).isEmpty &&
        (secondarySourcesOf store uid).isEmpty && (trimStr q).isEmpty then
      fetchDefaultList (trimStr q) store
    else if (recommendMergedOf store uid (trimStr q)).isEmpty then
      fetchDefaultList (trimStr q) store
    else
      recommendMergedOf store uid (trimStr q)

/-- A listing as it leaves the popularity pipeline: the document plus the
computed `likeCount` and `shareCount` fields; `popularityScore` is
projected away (chat.ts line 441) and hence absent here. -/
structure PopularEntry where
  item : ProductDoc
  likeCount : Nat
  shareCount : Nat
deriving DecidableEq, Repr

/-- The `$addFields` stages (chat.ts lines 419-431): `likeCount` is the
size of `likedBy` (`$ifNull` to `[]`), `shareCount` defaults to 0. -/
def popularize (p : ProductDoc) : PopularEntry :=
  ⟨p, (p.likedBy.getD []).length, p.shareCount.getD 0⟩

/-- `popularityScore = likeCount + shareCount`. -/
def popScore (e : PopularEntry) : Nat := e.likeCount + e.shareCount

/-- The descending `$sort` key order (chat.ts lines 432-439): by
popularity score, then like count, then share count, then recency. -/
def popGe (a b : PopularEntry) : Prop :=
  popScore b < popScore a ∨
    (popScore a = popScore b ∧
      (b.likeCount < a.likeCount ∨
        (a.likeCount = b.likeCount ∧
          (b.shareCount < a.shareCount ∨
            (a.shareCount = b.shareCount ∧
              b.item.createdAt ≤ a.item.createdAt)))))

instance : DecidableRel popGe := fun _ _ =>
  inferInstanceAs (Decidable (_ ∨ _))

instance : IsTotal PopularEntry popGe :=
  ⟨by intro a b; unfold popGe; omega⟩

instance : IsTrans PopularEntry popGe :=
  ⟨by intro a b c; unfold popGe; omega⟩

/-- The `sort=popular` aggregation (chat.ts lines 416-445) over a matched
listing collection: compute the engagement fields, sort descending by the
composite key, cap at 200. -/
def popularPipeline (ds : List ProductDoc) : List PopularEntry :=
  (List.insertionSort popGe (ds.map popularize)).take 200

/-- Embedding of the like-toggle handler `POST /:id/like` (chat.ts lines
618-644): remove the user from `likedBy` when present, append once when
absent.  The schema defaults `likedBy` to `[]`, matching `getD []`. -/
def likeToggle (item : ProductDoc) (uid : Nat) : ProductDoc :=
  if (item.likedBy.getD []).any (fun i => i == uid) then
    { item with
        likedBy := some ((item.likedBy.getD []).filter (fun i => !(i == uid))) }
  else
    { item with likedBy := some (item.likedBy.getD [] ++ [uid]) }

/-- A listing with 10 likes and 2 shares (the spec's popularity example A). -/
def listingA : ProductDoc := ⟨1, some ['a'], none, some (List.range 10), some 2, 100⟩

/-- A listing with 8 likes and 4 shares (the spec's popularity example B). -/
def listingB : ProductDoc := ⟨2, some ['b'], none, some (List.range 8), some 4, 100⟩

/-- A listing liked by user 7, used as an engaged-with (excluded) source. -/
def listingP1 : ProductDoc := ⟨1, some ['a', 'b'], some ['c'], some [7], some 0, 5⟩

/-- A listing unrelated to user 7's interests. -/
def listingP2 : ProductDoc := ⟨2, some ['z'], none, some [], some 0, 3⟩

/-- A store whose single listing is already liked by user 7, so the tier
merge for user 7 is empty and the handler takes the default fallback. -/
def storeS1 : Store := ⟨[listingP1], []⟩

/-- A two-listing store where user 7 liked `listingP1` only. -/
def storeS2 : Store := ⟨[listingP1, listingP2], []⟩

/-- The empty store. -/
def stEmpty : Store := ⟨[], []⟩

/-- A listing with an empty `likedBy` list. -/
def item0 : ProductDoc := ⟨9, none, none, some [], none, 0⟩

/-- Folding set insertion over a word list adds exactly that list's
elements to the set. -/
theorem foldl_insert_eq (s : Finset Str) (ws : List Str) :
    ws.foldl (fun t w => insert w t) s = s ∪ ws.toFinset := by
  induction ws generalizing s with
  | nil => simp
  | cons w ws ih =>
    simp only [List.foldl_cons, ih, List.toFinset_cons]
    rw [Finset.insert_union, Finset.union_insert]

/-- C8: applying `addKeywords` twice with the same title to the same set
produces the same set as applying it once — keyword extraction is
idempotent. -/
theorem addKeywords_idempotent (s : Finset Str) (title : Option Str) :
    addKeywords (addKeywords s title) title = addKeywords s title := by
  cases title with
  | none => rfl
  | some t =>
    by_cases h : t.isEmpty
    · simp [addKeywords, h]
    · simp only [addKeywords, h, Bool.false_eq_true, if_false]
      rw [foldl_insert_eq, foldl_insert_eq, Finset.union_assoc,
        Finset.union_self]

/-- C7 counterexample: with the present-but-empty title and the keyword
set holding only the empty keyword, `hasKeywordMatch` returns `false`
although the lower-cased title does contain a keyword of the set as a
substring, so the claimed biconditional fails at this input. -/
theorem hasKeywordMatch_claim_cex :
    ¬ (hasKeywordMatch (some ([] : Str)) {([] : Str)} = true ↔
        ∃ k ∈ ({([] : Str)} : Finset Str), k <:+: toLowerStr ([] : Str)) := by
  intro hiff
  have hmem : ([] : Str) ∈ ({([] : Str)} : Finset Str) :=
    Finset.mem_singleton_self _
  have htrue : hasKeywordMatch (some ([] : Str)) {([] : Str)} = true :=
    hiff.mpr ⟨[], hmem, List.infix_rfl⟩
  exact absurd htrue (by decide)

/-- C7 (amended): `hasKeywordMatch` returns true iff the title is present
and non-empty and the lower-cased title contains at least one keyword of
the set as a substring; in particular it returns false whenever the
keyword set is empty or the title is absent or empty. -/
theorem hasKeywordMatch_iff (title : Option Str) (ks : Finset Str) :
    hasKeywordMatch title ks = true ↔
      ∃ t, title = some t ∧ t ≠ [] ∧ ∃ k ∈ ks, k <:+: toLowerStr t := by
  cases title with
  | none => simp [hasKeywordMatch]
  | some t =>
    rcases eq_or_ne t [] with ht | ht
    · subst ht
      simp [hasKeywordMatch]
    · have hT : t.isEmpty = false := by
        cases t with
        | nil => exact absurd rfl ht
        | cons c cs => rfl
      by_cases hK : ks.card = 0
      · have hks : ks = ∅ := Finset.card_eq_zero.mp hK
        subst hks
        simp [hasKeywordMatch]
      · simp [hasKeywordMatch, hT, hK, ht]

/-- The scorer loop computes exactly the three order-preserving filters of
the candidate pool: non-excluded primary hits, then non-excluded
primary-misses that hit the secondary profile, then the rest. -/
theorem scoreCandidates_eq (primary secondary : InterestProfile)
    (excl : Finset Nat) (l : List ProductDoc) :
    scoreCandidates primary secondary excl l =
      (l.filter (inTierOne primary excl),
        l.filter (inTierTwo primary secondary excl),
        l.filter (inTierThree primary secondary excl)) := by
  induction l with
  | nil => rfl
  | cons p rest ih =>
    by_cases hx : p.id ∈ excl
    · simp [scoreCandidates, ih, List.filter_cons, inTierOne, inTierTwo,
        inTierThree, hx]
    · by_cases h1 : profileHit primary p
      · simp [scoreCandidates, ih, List.filter_cons, inTierOne, inTierTwo,
          inTierThree, hx, h1]
      · by_cases h2 : profileHit secondary p
        · simp [scoreCandidates, ih, List.filter_cons, inTierOne, inTierTwo,
            inTierThree, hx, h1, h2]
        · simp [scoreCandidates, ih, List.filter_cons, inTierOne, inTierTwo,
            inTierThree, hx, h1, h2]

/-- C1: for every candidate pool, pair of interest profiles and exclusion
set, the merged scorer output equals the non-excluded primary-tier
candidates, then the remaining non-excluded secondary-tier candidates,
then all other non-excluded candidates — each tier a filter of the pool,
hence preserving pool order — truncated to the limit of 200. -/
theorem recommend_merge_tiers (candidates : List ProductDoc)
    (primary secondary : InterestProfile) (excl : Finset Nat) :
    mergedOf primary secondary excl candidates =
      (candidates.filter (inTierOne primary excl) ++
          candidates.filter (inTierTwo primary secondary excl) ++
          candidates.filter (inTierThree primary secondary excl)).take 200 := by
  unfold mergedOf
  rw [scoreCandidates_eq]

/-- No member of the merged scorer output has an excluded identity. -/
theorem mem_mergedOf_not_excluded (primary secondary : InterestProfile)
    (excl : Finset Nat) (candidates : List ProductDoc) (p : ProductDoc)
    (hp : p ∈ mergedOf primary secondary excl candidates) :
    p.id ∉ excl := by
  unfold mergedOf at hp
  rw [scoreCandidates_eq] at hp
  have hp' := List.mem_of_mem_take hp
  rcases List.mem_append.mp hp' with hp2 | h3
  · rcases List.mem_append.mp hp2 with h1 | h2
    · have h := (List.mem_filter.mp h1).2
      simp only [inTierOne, Bool.and_eq_true, Bool.not_eq_true',
        decide_eq_false_iff_not] at h
      exact h.1
    · have h := (List.mem_filter.mp h2).2
      simp only [inTierTwo, Bool.and_eq_true, Bool.not_eq_true',
        decide_eq_false_iff_not] at h
      exact h.1.1
  · have h := (List.mem_filter.mp h3).2
    simp only [inTierThree, Bool.and_eq_true, Bool.not_eq_true',
      decide_eq_false_iff_not] at h
    exact h.1.1

/-- C2: in an identified recommend request, no listing whose identity lies
in the exclusion set built from the user's liked, shared and
recently-viewed listings appears in the merged scorer output. -/
theorem recommend_merged_excludes (store : Store) (uid : Nat) (q : Str)
    (p : ProductDoc) (hp : p ∈ recommendMergedOf store uid (trimStr q)) :
    p.id ∉ excludeIdsOf store uid :=
  mem_mergedOf_not_excluded _ _ _ _ _ hp

/-- C2 witness: in the two-listing store where user 7 liked `listingP1`,
the unengaged `listingP2` is in the merged output and its identity is not
excluded. -/
theorem recommend_merged_excludes_witness :
    listingP2 ∈ recommendMergedOf storeS2 7 (trimStr []) ∧
      listingP2.id ∉ excludeIdsOf storeS2 7 :=
  ⟨by decide, recommend_merged_excludes storeS2 7 [] listingP2 (by decide)⟩

/-- C4: the three tier sizes produced by the scorer (before truncation)
add up to the pool size minus the number of pool members whose identity is
excluded. -/
theorem scorer_tier_count (candidates : List ProductDoc)
    (primary secondary : InterestProfile) (excl : Finset Nat) :
    (scoreCandidates primary secondary excl candidates).1.length +
        (scoreCandidates primary secondary excl candidates).2.1.length +
        (scoreCandidates primary secondary excl candidates).2.2.length =
      candidates.length -
        (candidates.filter (fun p => decide (p.id ∈ excl))).length := by
  rw [scoreCandidates_eq]
  dsimp only
  induction candidates with
  | nil => rfl
  | cons p rest ih =>
    have hle := List.length_filter_le (fun p => decide (p.id ∈ excl)) rest
    by_cases hx : p.id ∈ excl
    · have e1 : inTierOne primary excl p = false := by simp [inTierOne, hx]
      have e2 : inTierTwo primary secondary excl p = false := by
        simp [inTierTwo, hx]
      have e3 : inTierThree primary secondary excl p = false := by
        simp [inTierThree, hx]
      have e4 : decide (p.id ∈ excl) = true := by simp [hx]
      simp only [List.filter_cons, e1, e2, e3, e4, Bool.false_eq_true,
        if_false, if_true, List.length_cons]
      omega
    · have e4 : decide (p.id ∈ excl) = false := by simp [hx]
      by_cases h1 : profileHit primary p
      · have e1 : inTierOne primary excl p = true := by
          simp [inTierOne, hx, h1]
        have e2 : inTierTwo primary secondary excl p = false := by
          simp [inTierTwo, h1]
        have e3 : inTierThree primary secondary excl p = false := by
          simp [inTierThree, h1]
        simp only [List.filter_cons, e1, e2, e3, e4, Bool.false_eq_true,
          if_false, if_true, List.length_cons]
        omega
      · by_cases h2 : profileHit secondary p
        · have e1 : inTierOne primary excl p = false := by
            simp [inTierOne, h1]
          have e2 : inTierTwo primary secondary excl p = true := by
            simp [inTierTwo, hx, h1, h2]
          have e3 : inTierThree primary secondary excl p = false := by
            simp [inTierThree, h2]
          simp only [List.filter_cons, e1, e2, e3, e4, Bool.false_eq_true,
            if_false, if_true, List.length_cons]
          omega
        · have e1 : inTierOne primary excl p = false := by
            simp [inTierOne, h1]
          have e2 : inTierTwo primary secondary excl p = false := by
            simp [inTierTwo, h2]
          have e3 : inTierThree primary secondary excl p = true := by
            simp [inTierThree, hx, h1, h2]
          simp only [List.filter_cons, e1, e2, e3, e4, Bool.false_eq_true,
            if_false, if_true, List.length_cons]
          omega

/-- C5: the recommend operation is total with a result capped at 200, and
it returns the default-mode result both when the identified user's liked,
shared and recently-viewed histories are all empty and no keyword was
given, and when the merged tiered result after exclusion is empty. -/
theorem recommend_no_domain_error (store : Store) (user : Option Nat)
    (q : Str) (uid : Nat) :
    (recommendHandler user q store).length ≤ 200 ∧
      (likedProductsOf store uid = [] → sharedIdsOf store uid = [] →
        viewedIdsOf store uid = [] → trimStr q = [] →
        recommendHandler (some uid) q store = fetchDefaultList [] store) ∧
      (recommendMergedOf store uid (trimStr q) = [] →
        recommendHandler (some uid) q store =
          fetchDefaultList (trimStr q) store) := by
  refine ⟨?_, ?_, ?_⟩
  · cases user with
    | none => exact List.length_take_le _ _
    | some u =>
      unfold recommendHandler
      dsimp only
      by_cases hc1 : ((primarySourcesOf store u).isEmpty &&
          (secondarySourcesOf store u).isEmpty && (trimStr q).isEmpty) = true
      · rw [if_pos hc1]
        exact List.length_take_le _ _
      · rw [if_neg hc1]
        by_cases hc2 : (recommendMergedOf store u (trimStr q)).isEmpty = true
        · rw [if_pos hc2]
          exact List.length_take_le _ _
        · rw [if_neg hc2]
          exact List.length_take_le 200 _
  · intro hL hS hV hq
    have hPs : primarySourcesOf store uid = [] := by
      simp [primarySourcesOf, sharedProductsOf, hL, hS]
    have hSs : secondarySourcesOf store uid = [] := by
      simp [secondarySourcesOf, viewedProductsOf, hV]
    simp [recommendHandler, hPs, hSs, hq]
  · intro hm
    by_cases hc : ((primarySourcesOf store uid).isEmpty &&
        (secondarySourcesOf store uid).isEmpty && (trimStr q).isEmpty) = true
    · simp [recommendHandler, hc]
    · simp [recommendHandler, hc, hm]

/-- C5 witness: on the empty store both fallback hypotheses hold for user
0 with no keyword, and the handler returns the default list. -/
theorem recommend_no_domain_error_witness :
    recommendHandler (some 0) [] stEmpty = fetchDefaultList [] stEmpty ∧
      recommendHandler (some 0) [] stEmpty =
        fetchDefaultList (trimStr []) stEmpty :=
  ⟨(recommend_no_domain_error stEmpty (some 0) [] 0).2.1 rfl rfl rfl rfl,
    (recommend_no_domain_error stEmpty (some 0) [] 0).2.2 rfl⟩

/-- C6: an anonymous recommend request with no keyword returns exactly the
default-mode listing result with an empty keyword filter. -/
theorem recommend_anonymous_eq_default (store : Store) :
    recommendHandler none [] store = listDefaultMode none none store := by
  unfold recommendHandler listDefaultMode fetchDefaultList productFind
  have h : ∀ p ∈ store.products,
      keywordFilterPred (trimStr []) p = indexFilter none none p := by
    intro p _
    rfl
  rw [List.filter_congr h]

/-- C3: popular mode computes per listing the like count, the defaulted
share count and their sum as the popularity score, returns at most 200
entries of a descending sort by (score, likeCount, shareCount, createdAt)
with the score itself projected away, and in particular ranks a listing
with 10 likes and 2 shares before one with 8 likes and 4 shares. -/
theorem popular_rank_spec :
    (∀ ds : List ProductDoc,
        (popularPipeline ds).length ≤ 200 ∧
          ∃ full : List PopularEntry,
            full.Perm (ds.map popularize) ∧ full.Sorted popGe ∧
              popularPipeline ds = full.take 200) ∧
      popularPipeline [listingB, listingA] =
        [popularize listingA, popularize listingB] := by
  constructor
  · intro ds
    exact ⟨List.length_take_le _ _,
      List.insertionSort popGe (ds.map popularize),
      List.perm_insertionSort _ _, List.sorted_insertionSort _ _, rfl⟩
  · decide

/-- C10: in the store whose only listing user 7 already liked, the merge
is empty, so the handler degrades to the default fetch, which does not
apply the exclusion set: the response contains the excluded listing. -/
theorem recommend_fallback_leaks_excluded :
    recommendMergedOf storeS1 7 (trimStr []) = [] ∧
      recommendHandler (some 7) [] storeS1 = [listingP1] ∧
      listingP1.id ∈ excludeIdsOf storeS1 7 :=
  ⟨by decide, by decide, by decide⟩

/-- C9: if a listing's `likedBy` list holds each user at most once, the
like toggle keeps that invariant, removes the user when present, and
appends the user exactly once when absent. -/
theorem like_toggle_once (item : ProductDoc) (uid : Nat)
    (h : ∀ v, (item.likedBy.getD []).count v ≤ 1) :
    (∀ v, ((likeToggle item uid).likedBy.getD []).count v ≤ 1) ∧
      (uid ∈ item.likedBy.getD [] →
        uid ∉ (likeToggle item uid).likedBy.getD []) ∧
      (uid ∉ item.likedBy.getD [] →
        (likeToggle item uid).likedBy.getD [] =
            item.likedBy.getD [] ++ [uid] ∧
          ((likeToggle item uid).likedBy.getD []).count uid = 1) := by
  by_cases hmem : uid ∈ item.likedBy.getD []
  · have hAny : (item.likedBy.getD []).any (fun i => i == uid) = true := by
      rw [List.any_eq_true]
      exact ⟨uid, hmem, by simp⟩
    have hres : (likeToggle item uid).likedBy.getD [] =
        (item.likedBy.getD []).filter (fun i => !(i == uid)) := by
      simp [likeToggle, hAny]
    refine ⟨?_, fun _ => ?_, fun hno => absurd hmem hno⟩
    · intro v
      rw [hres]
      exact le_trans (List.Sublist.count_le (List.filter_sublist _) v) (h v)
    · rw [hres]
      intro hmf
      have h2 := (List.mem_filter.mp hmf).2
      simp at h2
  · have hAny : (item.likedBy.getD []).any (fun i => i == uid) = false := by
      simp only [List.any_eq_false, beq_iff_eq]
      intro x hx hxe
      exact hmem (hxe ▸ hx)
    have hres : (likeToggle item uid).likedBy.getD [] =
        item.likedBy.getD [] ++ [uid] := by
      simp [likeToggle, hAny]
    refine ⟨?_, fun hm => absurd hm hmem, fun _ => ⟨hres, ?_⟩⟩
    · intro v
      rw [hres, List.count_append]
      by_cases hv : v = uid
      · subst hv
        have h0 : (item.likedBy.getD []).count v = 0 :=
          List.count_eq_zero.mpr hmem
        simp [h0]
      · have h1 : List.count v [uid] = 0 := by simp [hv]
        have := h v
        omega
    · rw [hres, List.count_append, List.count_eq_zero.mpr hmem]
      simp

/-- C9 witness: toggling user 5 on a listing with an empty `likedBy` list
appends the user once. -/
theorem like_toggle_once_witness :
    (likeToggle item0 5).likedBy.getD [] = item0.likedBy.getD [] ++ [5] ∧
      ((likeToggle item0 5).likedBy.getD []).count 5 = 1 := by
  have h0 : ∀ v : Nat, (item0.likedBy.getD []).count v ≤ 1 := by
    intro v
    simp [item0]
  exact (like_toggle_once item0 5 h0).2.2 (by decide)
